import Mathlib

/-!
Verification development for the RequestProbe core: a shallow embedding of
the Go sources (backend/core/validator, backend/core/parser,
backend/core/tester, backend/services, and the curl parser / expression
manager) together with theorems settling the specification's claims.

Go maps are modelled as association lists (`List (String × String)`); Go's
`len` on a string is modelled by `String.utf8ByteSize` (byte length); Go's
`strings.Contains` by an explicit substring scan over the character list.
External library calls (net/url parsing, go/parser, the HTTP client, the
golang.org/x/text codecs) are injected as parameters of the embedded
functions, exactly where the source calls out to them.
-/

namespace RequestProbe

/-- Go `strings.Contains` on character lists: `containsSub hay needle`
is true iff `needle` occurs contiguously in `hay` (the empty needle
always occurs). -/
def containsSub : List Char → List Char → Bool
  | [], needle => needle.isEmpty
  | h :: t, needle => needle.isPrefixOf (h :: t) || containsSub t needle

/-- Go `strings.Contains` on strings. -/
def strContains (hay needle : String) : Bool :=
  containsSub hay.data needle.data

/-- Go `strings.HasPrefix`. -/
def goHasPrefix (s pre : String) : Bool :=
  pre.data.isPrefixOf s.data

/-- Go `strings.ToLower` (ASCII case mapping, which agrees with Go on
the ASCII header and mode names the sources compare). -/
def goToLower (s : String) : String :=
  ⟨s.data.map Char.toLower⟩

/-- Go `strings.ToUpper` (ASCII case mapping). -/
def goToUpper (s : String) : String :=
  ⟨s.data.map Char.toUpper⟩

/-- Go `strings.TrimSpace`: drop whitespace from both ends. -/
def goTrim (s : String) : String :=
  ⟨((s.data.dropWhile Char.isWhitespace).reverse.dropWhile
      Char.isWhitespace).reverse⟩

/-- Go slicing `s[:n]` at a character boundary. -/
def strTake (s : String) (n : Nat) : String :=
  ⟨s.data.take n⟩

/-- Go slicing `s[n:]` at a character boundary. -/
def strDrop (s : String) (n : Nat) : String :=
  ⟨s.data.drop n⟩

/-- Go `strings.Split` with a one-character separator, on character
lists: the separators are removed and the (possibly empty) pieces
between them returned; the result is never empty. -/
def splitOnChar (sep : Char) : List Char → List (List Char)
  | [] => [[]]
  | c :: rest =>
      if c == sep then [] :: splitOnChar sep rest
      else
        match splitOnChar sep rest with
        | [] => [[c]]
        | piece :: more => (c :: piece) :: more

/-- Go `strings.Split(s, sep)` on strings, one-character separator. -/
def goSplitChar (s : String) (sep : Char) : List String :=
  (splitOnChar sep s.data).map (fun l => (⟨l⟩ : String))

/-- Go `strings.ReplaceAll(s, "\r\n", "\n")` on character lists. -/
def replaceCRLF : List Char → List Char
  | [] => []
  | '\r' :: '\n' :: rest => '\n' :: replaceCRLF rest
  | c :: rest => c :: replaceCRLF rest

/-- Splitting into tokens at whitespace (pieces may be empty). -/
def splitWS : List Char → List (List Char)
  | [] => [[]]
  | c :: rest =>
      if c.isWhitespace then [] :: splitWS rest
      else
        match splitWS rest with
        | [] => [[c]]
        | piece :: more => (c :: piece) :: more

/-- Go `strings.Join(lines, "\n")`. -/
def joinNL (lines : List String) : String :=
  ⟨List.intercalate ['\n'] (lines.map String.data)⟩

/-- models.TextMatchingConfig (backend/models/request.go). -/
structure TextMatchingConfig where
  enabled : Bool
  texts : List String
  matchMode : String
  caseSensitive : Bool

/-- models.LengthRangeConfig (backend/models/request.go). -/
structure LengthRangeConfig where
  enabled : Bool
  minLength : Int
  maxLength : Int

/-- models.ValidationConfig (backend/models/request.go); only the fields the
validator and the retry loop read. `timeout` is in nanoseconds as Go's
`time.Duration`. -/
structure ValidationConfig where
  expression : String
  timeout : Int
  maxRetries : Int
  followRedirect : Bool
  userAgent : String
  textMatching : TextMatchingConfig
  lengthRange : LengthRangeConfig
  useCustomExpr : Bool
  preserveUserAgent : Bool

/-- models.ResponseData (backend/models/request.go); only the fields
the validator reads. -/
structure ResponseData where
  statusCode : Int
  body : String

/-- The loop body of SafeValidator.checkTextMatching
(backend/core/validator/safe_validator.go lines 247-264): walks the text
list carrying `matchCount`; an empty needle is skipped; a hit in
matchMode "any" returns true immediately; after the loop, matchMode
"all" compares `matchCount` with the FULL list length `total`, any other
mode tests `matchCount > 0`. -/
def textMatchLoop (caseSensitive : Bool) (matchMode : String) (total : Nat)
    (text : String) : List String → Nat → Bool
  | [], matchCount =>
      if matchMode == "all" then matchCount == total else matchCount > 0
  | searchText :: rest, matchCount =>
      if searchText == "" then
        textMatchLoop caseSensitive matchMode total text rest matchCount
      else
        let checkText := if caseSensitive then searchText else goToLower searchText
        if strContains text checkText then
          if matchMode == "any" then true
          else textMatchLoop caseSensitive matchMode total text rest (matchCount + 1)
        else
          textMatchLoop caseSensitive matchMode total text rest matchCount

/-- SafeValidator.checkTextMatching
(backend/core/validator/safe_validator.go lines 236-273). -/
def checkTextMatching (config : TextMatchingConfig) (responseBody : String) : Bool :=
  if config.texts.length == 0 then
    responseBody.utf8ByteSize > 0
  else
    let text := if config.caseSensitive then responseBody else goToLower responseBody
    textMatchLoop config.caseSensitive config.matchMode config.texts.length
      text config.texts 0

/-- SafeValidator.checkLengthRange
(backend/core/validator/safe_validator.go lines 276-288); `len` on the Go
string is the byte length. -/
def checkLengthRange (config : LengthRangeConfig) (responseBody : String) : Bool :=
  let length : Int := responseBody.utf8ByteSize
  if length < config.minLength then false
  else if config.maxLength > 0 && length > config.maxLength then false
  else true

/-- SafeValidator.EvaluateConfig
(backend/core/validator/safe_validator.go lines 207-233). The custom
expression branch calls SafeValidator.EvaluateExpression, which begins by
running the Go standard library parser on the string; that evaluator is
injected as the parameter `evalExpr`. -/
def EvaluateConfig (evalExpr : String → ResponseData → Except String Bool)
    (config : ValidationConfig) (response : ResponseData) : Except String Bool :=
  if config.useCustomExpr && config.expression != "" then
    evalExpr config.expression response
  else if response.statusCode < 200 || response.statusCode ≥ 300 then
    .ok false
  else if config.textMatching.enabled then
    .ok (checkTextMatching config.textMatching response.body)
  else if config.lengthRange.enabled then
    .ok (checkLengthRange config.lengthRange response.body)
  else
    .error "验证配置错误：未启用任何验证规则"

/-! ## HTTP engine: retry loop and outgoing headers
(backend/core/tester/request_tester.go) -/

/-- The adjustment at the top of RequestTester.TestRequestWithRetry
(request_tester.go lines 172-175): `maxRetries := config.MaxRetries;
if maxRetries <= 0 { maxRetries = 3 }`. -/
def effectiveMaxRetries (m : Int) : Int :=
  if m ≤ 0 then 3 else m

/-- The retry loop of RequestTester.TestRequestWithRetry
(request_tester.go lines 177-194). The single attempt `t.TestRequest`
(network I/O) is injected as the oracle `attemptOk : Nat → Bool` giving
each attempt's outcome. `remaining` counts the loop iterations still
allowed (`maxRetries + 1 - attempt`). Returns the number of attempts
actually issued, the list of sleeps (in milliseconds, `100*(1<<attempt)`)
performed between consecutive attempts, and whether a response was
obtained. -/
def retryAttempts (attemptOk : Nat → Bool) : Nat → Nat → Nat × List Nat × Bool
  | _, 0 => (0, [], false)
  | attempt, remaining + 1 =>
      if attemptOk attempt then (1, [], true)
      else if remaining == 0 then (1, [], false)
      else
        let r := retryAttempts attemptOk (attempt + 1) remaining
        (r.1 + 1, (100 * 2 ^ attempt) :: r.2.1, r.2.2)

/-- RequestTester.TestRequestWithRetry (request_tester.go lines 171-195):
runs the loop with `attempt` from 0 while `attempt <= maxRetries`, where
`maxRetries` was already defaulted by `effectiveMaxRetries`. -/
def TestRequestWithRetry (attemptOk : Nat → Bool) (config : ValidationConfig) :
    Nat × List Nat × Bool :=
  retryAttempts attemptOk 0 ((effectiveMaxRetries config.maxRetries).toNat + 1)

/-! ## Request model and the simplified request
(backend/models/request.go, backend/core/tester/request_tester.go) -/

/-- Association-list update with Go map-assignment semantics: overwrite
the value when the key is present, append otherwise. -/
def mapInsert (m : List (String × String)) (k v : String) :
    List (String × String) :=
  if m.any (fun p => p.1 == k) then
    m.map (fun p => if p.1 == k then (k, v) else p)
  else
    m ++ [(k, v)]

/-- Association-list lookup with Go map-read semantics. -/
def mapLookup (m : List (String × String)) (k : String) : Option String :=
  match m with
  | [] => none
  | p :: rest => if p.1 == k then some p.2 else mapLookup rest k

/-- Valid header-field-name bytes (Go net/textproto
validHeaderFieldByte): letters, digits, and the RFC 7230 token specials,
given here by their ASCII codes. -/
def validHeaderFieldChar (c : Char) : Bool :=
  (c ≥ Char.ofNat 97 && c ≤ Char.ofNat 122) ||
  (c ≥ Char.ofNat 65 && c ≤ Char.ofNat 90) ||
  (c ≥ Char.ofNat 48 && c ≤ Char.ofNat 57) ||
  (([33, 35, 36, 37, 38, 39, 42, 43, 45, 46, 94, 95, 96, 124,
     126].map Char.ofNat).contains c)

/-- The canonicalization pass of Go net/textproto
CanonicalMIMEHeaderKey: uppercase the first letter and every letter
following a `-`, lowercase the rest. -/
def canonicalChars : Bool → List Char → List Char
  | _, [] => []
  | upper, c :: rest =>
      let c2 := if upper then c.toUpper else c.toLower
      c2 :: canonicalChars (c2 == Char.ofNat 45) rest

/-- Go net/textproto CanonicalMIMEHeaderKey, as used by
http.Header.Set: keys containing an invalid byte are left unchanged,
valid keys are canonicalized (e.g. "user-agent" → "User-Agent"). -/
def canonicalMIMEHeaderKey (s : String) : String :=
  if s.data.all validHeaderFieldChar then ⟨canonicalChars true s.data⟩ else s

/-- The header map built by RequestTester.createHTTPRequest
(request_tester.go lines 210-219): `httpReq.Header = make(http.Header)`
clears the defaults, then every caller header is stored with
`Header.Set` (which canonicalizes the key) EXCEPT a `User-Agent`
(case-insensitive) with empty value, which is skipped — leaving the
User-Agent key ABSENT from the map. -/
def createHTTPRequestHeaderMap (headers : List (String × String)) :
    List (String × String) :=
  headers.foldl (fun acc kv =>
    if goToLower kv.1 == "user-agent" && kv.2 == "" then acc
    else mapInsert acc (canonicalMIMEHeaderKey kv.1) kv.2) []

/-- Modelled from the Go standard library, net/http Request.write (the
wire writer the spec's HTTP Engine uses, not repository code): the
User-Agent header actually written on the wire. Go writes the default
"Go-http-client/1.1" unless the request's header map CONTAINS a
"User-Agent" key; a key present with empty value suppresses the header
entirely; a non-empty value is sent as given. -/
def wireUserAgent (headerMap : List (String × String)) : Option String :=
  match mapLookup headerMap "User-Agent" with
  | none => some "Go-http-client/1.1"
  | some v => if v == "" then none else some v

/-- models.ParsedRequest (backend/models/request.go). -/
structure ParsedRequest where
  method : String
  url : String
  headers : List (String × String)
  cookies : List (String × String)
  body : String
  queryParams : List (String × String)
  contentType : String

/-- RequestTester.generateSimplifiedRequestFromCumulative
(request_tester.go lines 887-922). The cumulative result maps
(models.TestResults) are given as lists of `(fieldName, required)`
entries; the source keeps a field iff its result is `Required` and the
field exists in the original, taking the ORIGINAL's value, and copies
method/url/body/contentType and every query parameter verbatim. -/
def generateSimplifiedRequestFromCumulative (original : ParsedRequest)
    (headerResults cookieResults : List (String × Bool)) : ParsedRequest :=
  { method := original.method
    url := original.url
    headers := headerResults.foldl (fun acc nr =>
      if nr.2 then
        match mapLookup original.headers nr.1 with
        | some v => mapInsert acc nr.1 v
        | none => acc
      else acc) []
    cookies := cookieResults.foldl (fun acc nr =>
      if nr.2 then
        match mapLookup original.cookies nr.1 with
        | some v => mapInsert acc nr.1 v
        | none => acc
      else acc) []
    body := original.body
    queryParams := original.queryParams
    contentType := original.contentType }

/-! ## Encoding detector (backend/core/encoding, calibration detection) -/

/-- A registered codec: its name together with its decoder. The decoders
come from golang.org/x/text (external library), so they are injected as
functions from the raw bytes to the decoded text (`none` models a decode
error). -/
structure Codec where
  name : String
  decode : List (Fin 256) → Option String

/-- The calibration loop of EncodingDetector.DetectEncoding, recorded with
the names of the codecs whose decoders were invoked: skip codecs that fail
to decode, return the first whose decoded text contains the calibration
text. -/
def detectEncodingLoop (data : List (Fin 256)) (calibrationText : String) :
    List Codec → Except String String × List String
  | [] => (.error ("无法检测到包含校准文本 '" ++ calibrationText ++ "' 的编码"), [])
  | c :: rest =>
      match c.decode data with
      | none =>
          let r := detectEncodingLoop data calibrationText rest
          (r.1, c.name :: r.2)
      | some decoded =>
          if strContains decoded calibrationText then (.ok c.name, [c.name])
          else
            let r := detectEncodingLoop data calibrationText rest
            (r.1, c.name :: r.2)

/-- EncodingDetector.DetectEncoding (backend/core/encoding, lines 529-559
of the combined validator source): an empty calibration text returns
"UTF-8" immediately; otherwise every registered codec is tried in turn.
The second component records which codec decoders were invoked. -/
def DetectEncoding (registered : List Codec) (data : List (Fin 256))
    (calibrationText : String) : Except String String × List String :=
  if calibrationText == "" then (.ok "UTF-8", [])
  else detectEncodingLoop data calibrationText registered

/-! ## Curl command parser (src/unnamed/part_001, CurlRequestParser) -/

/-- CurlRequestParser.extractURL (part_001 lines 137-153). The source
iterates `for i, arg := range args`; inside the flag branch it executes
`i++` intending to skip the flag's value, but incrementing the range
variable has no effect on a Go range loop, so iteration still visits the
value token. The faithful semantics is therefore a plain walk: skip
`curl`, skip tokens starting with `-`, and return the first remaining
token. -/
def extractURL : List String → String
  | [] => ""
  | arg :: rest =>
      if arg == "curl" then extractURL rest
      else if goHasPrefix arg "-" then extractURL rest
      else arg

/-! ## Expression manager (src/unnamed/part_000, ExpressionManager) -/

/-- ExpressionManager.ValidateExpression (part_000 lines 242-255): the
service-facade expression validation only rejects the empty string and a
string not containing the substring "response"; it performs no parsing
and no AST walk. -/
def emValidateExpression (expression : String) : Except String Unit :=
  if expression == "" then .error "表达式不能为空"
  else if !(strContains expression "response") then .error "表达式必须包含response对象"
  else .ok ()

/-! ## Raw HTTP request parser (backend/core/parser/raw_parser.go) -/

/-- Go `strings.Fields`: whitespace-separated tokens, no empties. -/
def stringFields (s : String) : List String :=
  ((splitWS s.data).filter (fun p => p ≠ [])).map (fun l => (⟨l⟩ : String))

/-- The method allowlist of RawRequestParser.parseRequestLine
(raw_parser.go line 109). -/
def validMethods : List String :=
  ["GET", "POST", "PUT", "DELETE", "PATCH", "HEAD", "OPTIONS"]

/-- RawRequestParser.parseRequestLine (raw_parser.go lines 99-123):
whitespace-split the line; fewer than two tokens is an error; the first
token, uppercased, must be a known method; the second is the URL; any
further tokens (the HTTP version) are ignored. -/
def parseRequestLine (line : String) : Except String (String × String) :=
  match stringFields line with
  | m :: u :: _ =>
      let method := goToUpper m
      if validMethods.contains method then .ok (method, u)
      else .error ("不支持的HTTP方法: " ++ method)
  | _ => .error "无效的请求行格式"

/-- Index of the first occurrence of `c` in `t` (Go `strings.Index` for a
one-byte pattern; positions in characters, which agrees with Go's byte
positions for slicing at the first occurrence). -/
def firstIdxOf (t : String) (c : Char) : Option Nat :=
  t.data.findIdx? (fun d => d == c)

/-- RawRequestParser.parseCookieHeader (raw_parser.go lines 126-141):
split on `;`, trim each pair, split at the first `=` (which must not be
at position 0), trim name and value. -/
def parseCookieHeader (cookieHeader : String) : List (String × String) :=
  (goSplitChar cookieHeader ';').foldl (fun cookies pairRaw =>
    let pair := goTrim pairRaw
    match firstIdxOf pair '=' with
    | some equalIndex =>
        if equalIndex > 0 then
          mapInsert cookies (goTrim (strTake pair equalIndex))
            (goTrim (strDrop pair (equalIndex + 1)))
        else cookies
    | none => cookies) []

/-- The header/body scan of RawRequestParser.Parse (raw_parser.go lines
45-66), iterating the lines after the request line with their index `i`
(starting at 1). Stops at the first line that trims to empty, returning
`bodyStartIndex = i + 1`; if no empty line occurs, `bodyStartIndex`
keeps its zero value, exactly as in the source. A header line is split at
its first `:` (not at position 0); a `Cookie` header (case-insensitive)
is additionally decomposed into the cookie map. -/
def headerScan : List String → Nat → List (String × String) →
    List (String × String) →
    List (String × String) × List (String × String) × Nat
  | [], _, headers, cookies => (headers, cookies, 0)
  | line :: rest, i, headers, cookies =>
      let t := goTrim line
      if t == "" then (headers, cookies, i + 1)
      else
        match firstIdxOf t ':' with
        | some colonIndex =>
            if colonIndex > 0 then
              let key := goTrim (strTake t colonIndex)
              let value := goTrim (strDrop t (colonIndex + 1))
              let headers' := mapInsert headers key value
              let cookies' :=
                if goToLower key == "cookie" then
                  (parseCookieHeader value).foldl
                    (fun cs kv => mapInsert cs kv.1 kv.2) cookies
                else cookies
              headerScan rest (i + 1) headers' cookies'
            else headerScan rest (i + 1) headers cookies
        | none => headerScan rest (i + 1) headers cookies

/-- The body of RawRequestParser.Parse after the lines are obtained
(raw_parser.go lines 31-95): parse the request line from `lines[0]`, scan
headers and cookies, assemble the body, parse the query string, and build
the ParsedRequest. -/
def rawParseRest (parseQuery : String → Except String (List (String × String)))
    (l0 : String) (restLines : List String) : Except String ParsedRequest :=
  match parseRequestLine (goTrim l0) with
  | .error e => .error ("解析请求行失败: " ++ e)
  | .ok mu =>
      let scan := headerScan restLines 1 [] []
      let lines := l0 :: restLines
      let body :=
        if scan.2.2 < lines.length then
          goTrim (joinNL (lines.drop scan.2.2))
        else ""
      match parseQuery mu.2 with
      | .error e => .error ("解析URL参数失败: " ++ e)
      | .ok queryParams =>
          let ct0 := (mapLookup scan.1 "Content-Type").getD ""
          let contentType :=
            if ct0 == "" then (mapLookup scan.1 "content-type").getD ""
            else ct0
          .ok { method := mu.1
                url := mu.2
                headers := scan.1
                cookies := scan.2.1
                body := body
                queryParams := queryParams
                contentType := contentType }

/-- RawRequestParser.Parse (raw_parser.go lines 21-96). The query-string
parser (`net/url` in the source) is injected as `parseQuery`. Note the
source takes `lines[0]` — the FIRST line, not the first non-empty line —
as the request line. -/
def RawParse (parseQuery : String → Except String (List (String × String)))
    (rawRequest : String) : Except String ParsedRequest :=
  if goTrim rawRequest == "" then .error "请求内容不能为空"
  else
    match (splitOnChar '\n' (replaceCRLF rawRequest.data)).map
        (fun l => (⟨l⟩ : String)) with
    | [] => .error "无效的请求格式"
    | l0 :: restLines => rawParseRest parseQuery l0 restLines

/-- The line RawParse takes the request line from: `lines[0]` of the
CRLF-normalized split of the raw text. -/
def firstRawLine (rawRequest : String) : String :=
  (((splitOnChar '\n' (replaceCRLF rawRequest.data)).map
    (fun l => (⟨l⟩ : String))).headD "")

/-! ## Safe expression validator (backend/core/validator/safe_validator.go)

The source parses the expression string with the Go standard library
(`go/parser.ParseExpr`, an external dependency) and then walks the
resulting `go/ast` tree with `SafeValidator.validateASTNode`. The walk is
embedded here over a mirror of the `go/ast` node kinds the switch
distinguishes: binary, unary, call, selector, identifier, basic literal,
parenthesis, and `otherNode` for every other node type (the `default`
case of the switch). -/

mutual
/-- Mirror of the `go/ast` expression nodes distinguished by
SafeValidator.validateASTNode. -/
inductive GoExpr where
  | binary (op : String) (x y : GoExpr)
  | unary (op : String) (x : GoExpr)
  | call (fn : GoExpr) (args : GoExprList)
  | selector (x : GoExpr) (sel : String)
  | ident (name : String)
  | basicLit (value : String)
  | paren (x : GoExpr)
  | otherNode

/-- Argument list of a call node. -/
inductive GoExprList where
  | nil
  | cons (head : GoExpr) (tail : GoExprList)
end

/-- The `allowedFunctions` map of NewSafeValidator
(safe_validator.go lines 26-36). -/
def allowedFunctions : List String :=
  ["len", "str", "int", "float", "bool", "lower", "upper", "strip", "json"]

/-- The `allowedOperators` map of NewSafeValidator
(safe_validator.go lines 37-48). -/
def allowedOperators : List String :=
  ["==", "!=", "<", "<=", ">", ">=", "&&", "||", "!", "in"]

/-- SafeValidator.isAllowedResponseField (safe_validator.go lines 154-167). -/
def isAllowedResponseField (field : String) : Bool :=
  ["status_code", "text", "content", "headers", "cookies", "url",
   "elapsed", "encoding", "reason"].contains field

/-- SafeValidator.isAllowedResponseMethod (safe_validator.go lines 170-175). -/
def isAllowedResponseMethod (method : String) : Bool :=
  ["json"].contains method

/-- SafeValidator.isBuiltinConstant (safe_validator.go lines 178-185). -/
def isBuiltinConstant (name : String) : Bool :=
  ["true", "false", "nil"].contains name

/-- The callee check inside the `*ast.CallExpr` case of validateASTNode
(safe_validator.go lines 98-113): a plain identifier must be an allowed
function; a selector must be `response.<allowed method>`; any OTHER callee
form (e.g. a parenthesized expression) matches neither type assertion and
is accepted without inspection. -/
def checkCallee : GoExpr → Except String Unit
  | .ident name =>
      if allowedFunctions.contains name then .ok ()
      else .error ("不允许的函数: " ++ name)
  | .selector (.ident xname) selName =>
      if xname == "response" then
        if isAllowedResponseMethod selName then .ok ()
        else .error ("不允许的response方法: " ++ selName)
      else .error "不允许的方法调用"
  | .selector _ _ => .error "不允许的方法调用"
  | _ => .ok ()

/-- Go's `if err := f(); err != nil { return err }; rest` sequencing:
propagate the first error, otherwise continue. -/
def seqE (r : Except String Unit) (k : Except String Unit) : Except String Unit :=
  match r with
  | .error e => .error e
  | .ok _ => k

mutual
/-- SafeValidator.validateASTNode (safe_validator.go lines 70-151),
with each `if err := ...; err != nil { return err }` written via `seqE`. -/
def validateASTNode : GoExpr → Except String Unit
  | .binary op x y =>
      seqE (validateASTNode x) (seqE (validateASTNode y)
        (if allowedOperators.contains op then .ok ()
         else .error ("不允许的操作符: " ++ op)))
  | .unary op x =>
      seqE (validateASTNode x)
        (if allowedOperators.contains op then .ok ()
         else .error ("不允许的操作符: " ++ op))
  | .call fn args => seqE (checkCallee fn) (validateArgs args)
  | .selector x selName =>
      match x with
      | .ident xname =>
          if xname == "response" then
            if isAllowedResponseField selName then .ok ()
            else .error ("不允许的response字段: " ++ selName)
          else .error "只允许访问response对象的字段"
      | _ => .error "只允许访问response对象的字段"
  | .ident name =>
      if name == "response" || isBuiltinConstant name then .ok ()
      else .error ("不允许的标识符: " ++ name)
  | .basicLit _ => .ok ()
  | .paren x => validateASTNode x
  | .otherNode => .error "不支持的表达式类型"

/-- The argument loop of the `*ast.CallExpr` case
(safe_validator.go lines 116-120). -/
def validateArgs : GoExprList → Except String Unit
  | .nil => .ok ()
  | .cons e rest => seqE (validateASTNode e) (validateArgs rest)
end

mutual
/-- Spec-side occurrence check, following the claim's words: does the
identifier `target` occur anywhere in the expression (including call
targets)? -/
def specContainsIdent (target : String) : GoExpr → Bool
  | .binary _ x y => specContainsIdent target x || specContainsIdent target y
  | .unary _ x => specContainsIdent target x
  | .call fn args =>
      specContainsIdent target fn || specArgsContainIdent target args
  | .selector x _ => specContainsIdent target x
  | .ident name => name == target
  | .basicLit _ => false
  | .paren x => specContainsIdent target x
  | .otherNode => false

/-- `specContainsIdent` on argument lists. -/
def specArgsContainIdent (target : String) : GoExprList → Bool
  | .nil => false
  | .cons e rest =>
      specContainsIdent target e || specArgsContainIdent target rest
end

mutual
/-- Spec-side allowed-construct predicate, following the claim's words:
every operator, identifier, selector and call target lies in the allowed
set (response fields, `response.json()`, the free functions, the
operators, literals and parentheses). -/
def specGoodExpr : GoExpr → Bool
  | .binary op x y =>
      allowedOperators.contains op && specGoodExpr x && specGoodExpr y
  | .unary op x => allowedOperators.contains op && specGoodExpr x
  | .call fn args =>
      (match fn with
       | .ident name => allowedFunctions.contains name
       | .selector (.ident xname) m =>
           xname == "response" && isAllowedResponseMethod m
       | _ => false) && specGoodArgs args
  | .selector (.ident xname) f =>
      xname == "response" && isAllowedResponseField f
  | .selector _ _ => false
  | .ident name => name == "response" || isBuiltinConstant name
  | .basicLit _ => true
  | .paren x => specGoodExpr x
  | .otherNode => false

/-- `specGoodExpr` on argument lists. -/
def specGoodArgs : GoExprList → Bool
  | .nil => true
  | .cons e rest => specGoodExpr e && specGoodArgs rest
end

mutual
/-- Restriction under which the walk matches the claim: every call's
callee is a plain identifier or a selector on a plain identifier (the
shapes `go/parser` produces for the grammar the spec admits). -/
def calleeSimple : GoExpr → Bool
  | .binary _ x y => calleeSimple x && calleeSimple y
  | .unary _ x => calleeSimple x
  | .call fn args =>
      (match fn with
       | .ident _ => true
       | .selector (.ident _) _ => true
       | _ => false) && calleeSimpleArgs args
  | .selector x _ => calleeSimple x
  | .ident _ => true
  | .basicLit _ => true
  | .paren x => calleeSimple x
  | .otherNode => true

/-- `calleeSimple` on argument lists. -/
def calleeSimpleArgs : GoExprList → Bool
  | .nil => true
  | .cons e rest => calleeSimple e && calleeSimpleArgs rest
end

/-! ## Theorems settling the claims -/

/-- C10: calibration-based encoding detection called with an empty
calibration string returns the codec name "UTF-8" and no error for every
byte input and every codec registry, and the list of codecs whose
decoders were invoked is empty. -/
theorem c10_detect_encoding_empty_calibration (registered : List Codec)
    (data : List (Fin 256)) :
    DetectEncoding registered data "" = (.ok "UTF-8", []) := rfl

/-- C7: evaluation of CurlRequestParser.extractURL at the failing input
`curl -X POST https://api.example.com/v1/ping`: because the `i++` in the
source has no effect on the range loop, the value token `POST` of the
`-X` flag is not consumed and is returned as the URL, contradicting both
the claim and the source's own comment. -/
theorem c7_extract_url_takes_flag_value :
    extractURL ["curl", "-X", "POST", "https://api.example.com/v1/ping"] =
      "POST" := rfl

/-- C4 counterexample: with minLength = 0 and maxLength = 0 the length
check passes on the one-byte body "x", whereas the claim says it passes
only on bodies of length 0. -/
theorem c4_counterexample :
    checkLengthRange ⟨true, 0, 0⟩ "x" = true ∧ ¬("x".utf8ByteSize = 0) :=
  ⟨rfl, by decide⟩

/-- C4 amended: in length-range mode with minLength = 0 and
maxLength = 0, validation passes for EVERY body — `maxLength ≤ 0` means
unbounded, so nothing is rejected. -/
theorem c4_zero_zero_passes_every_body (enabled : Bool) (body : String) :
    checkLengthRange ⟨enabled, 0, 0⟩ body = true := by
  have h0 : ¬ ((body.utf8ByteSize : Int) < 0) := not_lt.2 (Int.natCast_nonneg _)
  simp [checkLengthRange, h0]

/-- C6: evaluation at the failing input. Skipping Header.Set for an
empty-valued User-Agent leaves the User-Agent key absent from the built
header map, so the host HTTP client substitutes the default
"Go-http-client/1.1" on the wire — the opposite of the claimed omission.
Actual suppression requires a PRESENT blank key, which the code never
produces; other caller headers are stored with their given values. -/
theorem c6_default_user_agent_substituted :
    createHTTPRequestHeaderMap [("User-Agent", "")] = [] ∧
    wireUserAgent (createHTTPRequestHeaderMap [("User-Agent", "")]) =
      some "Go-http-client/1.1" ∧
    wireUserAgent [("User-Agent", "")] = none ∧
    createHTTPRequestHeaderMap [("X-Trace", "1"), ("User-Agent", "")] =
      [("X-Trace", "1")] ∧
    wireUserAgent (createHTTPRequestHeaderMap [("User-Agent", "UA/1")]) =
      some "UA/1" :=
  ⟨rfl, rfl, rfl, rfl, rfl⟩

/-- C2: validation dispatch. With useCustomExpr set and a non-empty
expression, the result is exactly the expression evaluator's result (the
2xx gate is not consulted); otherwise a status code outside [200,300)
yields a failed validation (ok false) — in particular 199 and 300 fail
the gate — while 200 and 299 pass the gate and hand over to the enabled
mode (shown for text matching). -/
theorem c2_evaluate_config_dispatch
    (evalExpr : String → ResponseData → Except String Bool)
    (config : ValidationConfig) (response : ResponseData) :
    (config.useCustomExpr = true → config.expression ≠ "" →
        EvaluateConfig evalExpr config response =
          evalExpr config.expression response)
    ∧ (¬(config.useCustomExpr = true ∧ config.expression ≠ "") →
        (response.statusCode < 200 ∨ 300 ≤ response.statusCode) →
        EvaluateConfig evalExpr config response = .ok false)
    ∧ (¬(config.useCustomExpr = true ∧ config.expression ≠ "") →
        config.textMatching.enabled = true →
        (response.statusCode = 200 ∨ response.statusCode = 299) →
        EvaluateConfig evalExpr config response =
          .ok (checkTextMatching config.textMatching response.body)) := by
  refine ⟨?_, ?_, ?_⟩
  · intro hu he
    have hc : (config.useCustomExpr && config.expression != "") = true := by
      simp [hu, he]
    simp [EvaluateConfig, hc]
  · intro hnc hstat
    have hc : (config.useCustomExpr && config.expression != "") = false := by
      cases hcc : (config.useCustomExpr && config.expression != "") with
      | false => rfl
      | true =>
          rw [Bool.and_eq_true] at hcc
          exact absurd ⟨hcc.1, by simpa using hcc.2⟩ hnc
    have hs : (response.statusCode < 200 ∨ response.statusCode ≥ 300) := by
      rcases hstat with h | h
      · exact Or.inl h
      · exact Or.inr h
    simp [EvaluateConfig, hc, hs]
  · intro hnc htm hstat
    have hc : (config.useCustomExpr && config.expression != "") = false := by
      cases hcc : (config.useCustomExpr && config.expression != "") with
      | false => rfl
      | true =>
          rw [Bool.and_eq_true] at hcc
          exact absurd ⟨hcc.1, by simpa using hcc.2⟩ hnc
    rcases hstat with h | h <;> simp [EvaluateConfig, hc, h, htm]

/-- Witness for C2: a config without a custom expression and a response
with status 199 fail validation with ok false. -/
theorem c2_witness :
    EvaluateConfig (fun _ _ => .ok true)
      ⟨"", 0, 0, false, "", ⟨true, [], "all", true⟩, ⟨false, 0, 0⟩, false, false⟩
      ⟨199, "hi"⟩ = .ok false :=
  (c2_evaluate_config_dispatch (fun _ _ => .ok true)
      ⟨"", 0, 0, false, "", ⟨true, [], "all", true⟩, ⟨false, 0, 0⟩, false, false⟩
      ⟨199, "hi"⟩).2.1 (by simp) (by decide)

/-- Lookup hits are members of the association list. -/
theorem mapLookup_mem {k v : String} :
    ∀ {m : List (String × String)}, mapLookup m k = some v → (k, v) ∈ m := by
  intro m
  induction m with
  | nil => intro h; simp [mapLookup] at h
  | cons p rest ih =>
      intro h
      rw [mapLookup] at h
      split at h
      · next hpk =>
          obtain ⟨a, b⟩ := p
          simp only [beq_iff_eq] at hpk
          simp only [Option.some.injEq] at h
          subst hpk
          subst h
          exact List.mem_cons_self _ _
      · next hpk => exact List.mem_cons_of_mem _ (ih h)

/-- Members of `mapInsert m k v` come from `m` or are the inserted pair. -/
theorem mem_mapInsert {m : List (String × String)} {k v : String}
    {q : String × String} (h : q ∈ mapInsert m k v) : q ∈ m ∨ q = (k, v) := by
  unfold mapInsert at h
  split at h
  · rcases List.mem_map.1 h with ⟨p, hp, hq⟩
    by_cases hpk : p.1 == k
    · right; rw [← hq]; simp [hpk]
    · left; rw [← hq]; simpa [hpk] using hp
  · rcases List.mem_append.1 h with h | h
    · exact Or.inl h
    · right; simpa using h

/-- Every pair produced by the keep-required fold of
generateSimplifiedRequestFromCumulative is a pair of the original map. -/
theorem simplifiedFold_subset (orig : List (String × String)) :
    ∀ (results : List (String × Bool)) (acc : List (String × String)),
      (∀ q ∈ acc, q ∈ orig) →
      ∀ q ∈ results.foldl (fun acc nr =>
          if nr.2 then
            match mapLookup orig nr.1 with
            | some v => mapInsert acc nr.1 v
            | none => acc
          else acc) acc, q ∈ orig := by
  intro results
  induction results with
  | nil => intro acc hacc q hq; exact hacc q hq
  | cons nr rest ih =>
      intro acc hacc q hq
      rw [List.foldl_cons] at hq
      refine ih _ ?_ q hq
      intro r hr
      by_cases hreq : nr.2 = true
      · rw [if_pos hreq] at hr
        cases hlk : mapLookup orig nr.1 with
        | none => rw [hlk] at hr; exact hacc r hr
        | some v =>
            rw [hlk] at hr
            rcases mem_mapInsert hr with h | h
            · exact hacc r h
            · rw [h]; exact mapLookup_mem hlk
      · rw [if_neg hreq] at hr
        exact hacc r hr

/-- C9: the simplified request generated from the cumulative results has
headers and cookies that are subsets of the original's (with identical
values), and its query parameters, method, URL, body and content type
equal the original's verbatim. -/
theorem c9_simplified_request_invariants (original : ParsedRequest)
    (headerResults cookieResults : List (String × Bool)) :
    (∀ q ∈ (generateSimplifiedRequestFromCumulative original headerResults
        cookieResults).headers, q ∈ original.headers) ∧
    (∀ q ∈ (generateSimplifiedRequestFromCumulative original headerResults
        cookieResults).cookies, q ∈ original.cookies) ∧
    (generateSimplifiedRequestFromCumulative original headerResults
        cookieResults).queryParams = original.queryParams ∧
    (generateSimplifiedRequestFromCumulative original headerResults
        cookieResults).method = original.method ∧
    (generateSimplifiedRequestFromCumulative original headerResults
        cookieResults).url = original.url ∧
    (generateSimplifiedRequestFromCumulative original headerResults
        cookieResults).body = original.body ∧
    (generateSimplifiedRequestFromCumulative original headerResults
        cookieResults).contentType = original.contentType := by
  refine ⟨?_, ?_, rfl, rfl, rfl, rfl, rfl⟩
  · exact fun q hq =>
      simplifiedFold_subset original.headers headerResults [] (by simp) q hq
  · exact fun q hq =>
      simplifiedFold_subset original.cookies cookieResults [] (by simp) q hq

/-- Witness for C9 at a concrete minimization outcome: the kept header of
the simplified request is a header of the original. -/
theorem c9_witness :
    (("Host", "a") ∈ ([("Host", "a"), ("X", "1")] : List (String × String))) :=
  (c9_simplified_request_invariants
    ⟨"GET", "http://a/", [("Host", "a"), ("X", "1")], [("c", "1")], "",
      [("q", "1")], ""⟩
    [("Host", true), ("X", false)] [("c", true)]).1 ("Host", "a") (by decide)

/-- In matchMode "all" the matching loop is a counter comparison: it
returns true iff the count carried in plus the number of non-empty,
contained needles in the remaining list equals `total`. -/
theorem textMatchLoop_all_eq (caseSensitive : Bool) (total : Nat)
    (text : String) :
    ∀ (l : List String) (cnt : Nat),
      textMatchLoop caseSensitive "all" total text l cnt =
        (cnt + l.countP (fun s => !(s == "") &&
            strContains text (if caseSensitive then s else goToLower s)) ==
          total) := by
  intro l
  induction l with
  | nil => intro cnt; simp [textMatchLoop]
  | cons s rest ih =>
      intro cnt
      rw [textMatchLoop]
      by_cases hs : (s == "") = true
      · rw [if_pos hs, ih, List.countP_cons]
        simp [hs]
      · rw [if_neg hs]
        have hs' : (s == "") = false := by
          cases hd : (s == "") with
          | false => rfl
          | true => exact absurd hd hs
        by_cases hm : strContains text
            (if caseSensitive then s else goToLower s) = true
        · rw [if_pos hm]
          have hnotany : (("all" : String) == "any") = false := by decide
          rw [hnotany]
          simp only [Bool.false_eq_true, if_false]
          rw [ih, List.countP_cons]
          simp only [hs', hm, Bool.not_false, Bool.true_and, if_pos]
          have harith : cnt + 1 + rest.countP (fun s => !(s == "") &&
              strContains text (if caseSensitive then s else goToLower s)) =
              cnt + (rest.countP (fun s => !(s == "") &&
                strContains text (if caseSensitive then s else goToLower s)) + 1) := by
            omega
          rw [harith]
        · have hm' : strContains text
              (if caseSensitive then s else goToLower s) = false := by
            cases hd : strContains text
                (if caseSensitive then s else goToLower s) with
            | false => rfl
            | true => exact absurd hd hm
          rw [if_neg (by simp [hm']), ih, List.countP_cons]
          simp [hs', hm']

/-- C3 amended: in matchMode "all" with a non-empty needle list,
validation passes iff EVERY needle in the list is non-empty and contained
in the body (both lowercased when caseSensitive is false) — an empty
needle in the list therefore forces a failure. -/
theorem c3_all_mode_requires_every_needle (config : TextMatchingConfig)
    (body : String) (hmode : config.matchMode = "all")
    (hne : config.texts ≠ []) :
    checkTextMatching config body = true ↔
      ∀ s ∈ config.texts, s ≠ "" ∧
        strContains (if config.caseSensitive then body else goToLower body)
          (if config.caseSensitive then s else goToLower s) = true := by
  unfold checkTextMatching
  have hlen : (config.texts.length == 0) = false := by
    have : config.texts.length ≠ 0 := by
      intro h
      exact hne (List.length_eq_zero.mp h)
    simpa using this
  rw [hlen]
  simp only [Bool.false_eq_true, if_false]
  rw [hmode, textMatchLoop_all_eq]
  rw [Nat.zero_add]
  rw [beq_iff_eq, List.countP_eq_length]
  constructor
  · intro h s hsmem
    have := h s hsmem
    rw [Bool.and_eq_true, Bool.not_eq_true', beq_eq_false_iff_ne] at this
    exact this
  · intro h s hsmem
    rw [Bool.and_eq_true, Bool.not_eq_true', beq_eq_false_iff_ne]
    exact h s hsmem

/-- C3 counterexample: with texts = [""] in matchMode "all" and the
non-empty body "x", every non-empty needle is (vacuously) contained, yet
checkTextMatching fails — the empty needle prevents the pass. -/
theorem c3_counterexample :
    checkTextMatching ⟨true, [""], "all", true⟩ "x" = false ∧
    (∀ s ∈ ([""] : List String), s ≠ "" → strContains "x" s = true) :=
  ⟨rfl, by decide⟩

/-- Witness for C3: in "all" mode with the single needle "ok" and body
"xok", validation passes. -/
theorem c3_witness :
    checkTextMatching ⟨true, ["ok"], "all", true⟩ "xok" = true :=
  (c3_all_mode_requires_every_needle ⟨true, ["ok"], "all", true⟩ "xok"
      rfl (by decide)).mpr (by decide)

/-- The retry loop issues between 1 and `remaining` attempts, and the
sleeps performed between consecutive attempts are exactly
`100·2^(attempt+i)` milliseconds for the i-th gap. -/
theorem retryAttempts_spec (attemptOk : Nat → Bool) :
    ∀ (remaining attempt : Nat), 1 ≤ remaining →
      1 ≤ (retryAttempts attemptOk attempt remaining).1 ∧
      (retryAttempts attemptOk attempt remaining).1 ≤ remaining ∧
      (retryAttempts attemptOk attempt remaining).2.1 =
        (List.range ((retryAttempts attemptOk attempt remaining).1 - 1)).map
          (fun i => 100 * 2 ^ (attempt + i)) := by
  intro remaining
  induction remaining with
  | zero => intro a h; exact absurd h (by omega)
  | succ n ih =>
      intro attempt _
      rw [retryAttempts]
      by_cases hok : attemptOk attempt = true
      · rw [if_pos hok]
        exact ⟨by omega, by omega, by simp⟩
      · rw [if_neg hok]
        by_cases hn : (n == 0) = true
        · rw [if_pos hn]
          exact ⟨by omega, by simp at hn; omega, by simp⟩
        · rw [if_neg hn]
          have hn1 : 1 ≤ n := by
            rw [beq_iff_eq] at hn
            omega
          obtain ⟨h1, h2, h3⟩ := ih (attempt + 1) hn1
          refine ⟨?_, ?_, ?_⟩
          · show 1 ≤ (retryAttempts attemptOk (attempt + 1) n).1 + 1
            omega
          · show (retryAttempts attemptOk (attempt + 1) n).1 + 1 ≤ n + 1
            omega
          · show 100 * 2 ^ attempt ::
                (retryAttempts attemptOk (attempt + 1) n).2.1 =
              (List.range
                  ((retryAttempts attemptOk (attempt + 1) n).1 + 1 - 1)).map
                (fun i => 100 * 2 ^ (attempt + i))
            obtain ⟨m, hm⟩ : ∃ m,
                (retryAttempts attemptOk (attempt + 1) n).1 = m + 1 :=
              ⟨_, (Nat.succ_pred_eq_of_pos h1).symm⟩
            rw [hm] at h3
            rw [hm]
            rw [Nat.add_sub_cancel] at h3
            rw [Nat.add_sub_cancel]
            rw [List.range_succ_eq_map, List.map_cons, List.map_map]
            rw [h3]
            congr 1
            apply List.map_congr_left
            intro i _
            simp only [Function.comp_apply]
            congr 1
            congr 1
            omega

/-- C5 counterexample: with maxRetries = 0 in the config, the retry loop
treats it as the default 3 and issues 4 attempts on persistent transport
failure, not the claimed at most maxRetries + 1 = 1. -/
theorem c5_counterexample :
    (TestRequestWithRetry (fun _ => false)
      ⟨"", 0, 0, false, "", ⟨false, [], "", false⟩, ⟨false, 0, 0⟩,
        false, false⟩).1 = 4 ∧ ¬((4 : Nat) ≤ 0 + 1) :=
  ⟨rfl, by decide⟩

/-- C5 amended: the number of attempts is at most
`effectiveMaxRetries(maxRetries) + 1` (so at most maxRetries + 1 whenever
maxRetries ≥ 1, while maxRetries ≤ 0 is replaced by the default 3, giving
up to 4 attempts), and the sleeps between consecutive attempts are
exactly 100·2^attempt milliseconds. -/
theorem c5_retry_bounds (attemptOk : Nat → Bool) (config : ValidationConfig) :
    (TestRequestWithRetry attemptOk config).1 ≤
        (effectiveMaxRetries config.maxRetries).toNat + 1 ∧
    (TestRequestWithRetry attemptOk config).2.1 =
      (List.range ((TestRequestWithRetry attemptOk config).1 - 1)).map
        (fun i => 100 * 2 ^ i) ∧
    (1 ≤ config.maxRetries →
      ((TestRequestWithRetry attemptOk config).1 : Int) ≤
        config.maxRetries + 1) := by
  obtain ⟨h1, h2, h3⟩ := retryAttempts_spec attemptOk
    ((effectiveMaxRetries config.maxRetries).toNat + 1) 0 (by omega)
  refine ⟨h2, by simpa using h3, ?_⟩
  intro hm
  have heff : effectiveMaxRetries config.maxRetries = config.maxRetries := by
    unfold effectiveMaxRetries
    rw [if_neg (by omega)]
  have hT : (TestRequestWithRetry attemptOk config).1 ≤
      (effectiveMaxRetries config.maxRetries).toNat + 1 := h2
  rw [heff] at hT
  have : ((TestRequestWithRetry attemptOk config).1 : Int) ≤
      (config.maxRetries.toNat : Int) + 1 := by
    exact_mod_cast hT
  rwa [Int.toNat_of_nonneg (by omega)] at this

/-- Witness for C5: with maxRetries = 1 and persistent failure, at most
2 attempts are made. -/
theorem c5_witness :
    ((TestRequestWithRetry (fun _ => false)
      ⟨"", 0, 1, false, "", ⟨false, [], "", false⟩, ⟨false, 0, 0⟩,
        false, false⟩).1 : Int) ≤ 1 + 1 :=
  (c5_retry_bounds (fun _ => false)
    ⟨"", 0, 1, false, "", ⟨false, [], "", false⟩, ⟨false, 0, 0⟩,
      false, false⟩).2.2 (by decide)

/-- C8 amended: the request line is `lines[0]` — the FIRST line of the
(CRLF-normalized) input, trimmed — whose whitespace-separated tokens
yield method, url and an ignored optional version: every successful
parse's method and URL come from parsing the first line, and an input
whose first line trims to empty (e.g. a leading empty line) never parses
successfully, for every query parser. -/
theorem c8_request_line_from_first_line
    (parseQuery : String → Except String (List (String × String)))
    (rawRequest : String) :
    (∀ req, RawParse parseQuery rawRequest = .ok req →
        parseRequestLine (goTrim (firstRawLine rawRequest)) =
          .ok (req.method, req.url)) ∧
    (goTrim (firstRawLine rawRequest) = "" →
        ∀ req, RawParse parseQuery rawRequest ≠ .ok req) := by
  unfold RawParse firstRawLine
  by_cases htrim : (goTrim rawRequest == "") = true
  · rw [if_pos htrim]
    exact ⟨fun req h => by simp at h, fun _ req h => by simp at h⟩
  · rw [if_neg htrim]
    cases hsplit : (splitOnChar '\n' (replaceCRLF rawRequest.data)).map
        (fun l => (⟨l⟩ : String)) with
    | nil => exact ⟨fun req h => by simp at h, fun _ req h => by simp at h⟩
    | cons l0 rest =>
        rw [List.headD_cons]
        unfold rawParseRest
        constructor
        · intro req h
          split at h
          · simp at h
          · rename_i lh lt hcons
            obtain ⟨rfl, rfl⟩ : l0 = lh ∧ rest = lt := by
              injection hcons with a b
              exact ⟨a, b⟩
            split at h
            · simp at h
            · rename_i mu hpl
              split at h
              · simp at h
              · rename_i qp hpq
                simp only [Except.ok.injEq] at h
                rw [hpl, ← h]
        · intro hempty req h
          split at h
          · simp at h
          · rename_i lh lt hcons
            obtain ⟨rfl, rfl⟩ : l0 = lh ∧ rest = lt := by
              injection hcons with a b
              exact ⟨a, b⟩
            split at h
            · simp at h
            · rename_i mu hpl
              rw [hempty] at hpl
              have hpe : parseRequestLine "" = .error "无效的请求行格式" := rfl
              rw [hpe] at hpl
              simp at hpl

/-- C8 counterexample: an input whose first line is empty but whose first
NON-empty line is a valid request line fails with a ParseError, though
that request line parses on its own — the parser does not skip leading
empty lines as the claim says. -/
theorem c8_counterexample :
    RawParse (fun _ => .ok [])
        "\nGET http://a.test/ HTTP/1.1\nHost: a.test\n\n" =
      .error "解析请求行失败: 无效的请求行格式" ∧
    parseRequestLine "GET http://a.test/ HTTP/1.1" =
      .ok ("GET", "http://a.test/") :=
  ⟨rfl, rfl⟩

/-- Witness for C8: a concrete successful parse whose method and URL are
exactly those parsed from the first line. -/
theorem c8_witness :
    parseRequestLine
        (goTrim (firstRawLine "GET http://a.test/ HTTP/1.1\nHost: a.test\n\n")) =
      .ok ("GET", "http://a.test/") :=
  (c8_request_line_from_first_line (fun _ => .ok [])
      "GET http://a.test/ HTTP/1.1\nHost: a.test\n\n").1
    ⟨"GET", "http://a.test/", [("Host", "a.test")], [], "", [], ""⟩ rfl

/-- The sequencing of two checks succeeds iff both succeed. -/
theorem seqE_ok {r k : Except String Unit} :
    seqE r k = .ok () ↔ (r = .ok () ∧ k = .ok ()) := by
  cases r with
  | error e => simp [seqE]
  | ok u => cases u; simp [seqE]

/-- A guarded success is a success iff the guard holds. -/
theorem ite_ok_iff {c : Prop} [Decidable c] {msg : String} :
    ((if c then (.ok () : Except String Unit) else .error msg) = .ok ()) ↔ c := by
  split
  · simp [*]
  · simp [*]

mutual
/-- On expressions whose call callees are plain identifiers or selectors
on identifiers, the walk accepts exactly the expressions all of whose
constructs lie in the allowed sets. -/
theorem validateASTNode_sound :
    ∀ (e : GoExpr), calleeSimple e = true →
      ((validateASTNode e = .ok ()) ↔ specGoodExpr e = true)
  | .binary op x y, h => by
      rw [calleeSimple, Bool.and_eq_true] at h
      have hx := validateASTNode_sound x h.1
      have hy := validateASTNode_sound y h.2
      rw [validateASTNode, specGoodExpr]
      simp only [seqE_ok, ite_ok_iff, Bool.and_eq_true, hx, hy]
      tauto
  | .unary op x, h => by
      rw [calleeSimple] at h
      have hx := validateASTNode_sound x h
      rw [validateASTNode, specGoodExpr]
      simp only [seqE_ok, ite_ok_iff, Bool.and_eq_true, hx]
      tauto
  | .call fn args, h => by
      cases fn with
      | binary a b c => simp [calleeSimple] at h
      | unary a b => simp [calleeSimple] at h
      | call a b => simp [calleeSimple] at h
      | paren a => simp [calleeSimple] at h
      | basicLit a => simp [calleeSimple] at h
      | otherNode => simp [calleeSimple] at h
      | ident name =>
          simp only [calleeSimple, Bool.true_and] at h
          have hargs := validateArgs_sound args h
          rw [validateASTNode, specGoodExpr]
          simp only [seqE_ok, checkCallee, ite_ok_iff, Bool.and_eq_true, hargs]
      | selector sx m =>
          cases sx with
          | binary a b c => simp [calleeSimple] at h
          | unary a b => simp [calleeSimple] at h
          | call a b => simp [calleeSimple] at h
          | paren a => simp [calleeSimple] at h
          | basicLit a => simp [calleeSimple] at h
          | otherNode => simp [calleeSimple] at h
          | selector a b => simp [calleeSimple] at h
          | ident xn =>
              simp only [calleeSimple, Bool.true_and] at h
              have hargs := validateArgs_sound args h
              rw [validateASTNode, specGoodExpr]
              by_cases hx : xn = "response"
              · subst hx
                simp [seqE_ok, checkCallee, ite_ok_iff, Bool.and_eq_true, hargs]
              · have hx' : (xn == "response") = false := by simpa using hx
                simp [seqE_ok, checkCallee, hx', hargs]
  | .selector x selName, h => by
      cases x with
      | binary a b c => simp [validateASTNode, specGoodExpr]
      | unary a b => simp [validateASTNode, specGoodExpr]
      | call a b => simp [validateASTNode, specGoodExpr]
      | paren a => simp [validateASTNode, specGoodExpr]
      | basicLit a => simp [validateASTNode, specGoodExpr]
      | otherNode => simp [validateASTNode, specGoodExpr]
      | selector a b => simp [validateASTNode, specGoodExpr]
      | ident xn =>
          by_cases hx : xn = "response"
          · subst hx
            rw [validateASTNode, specGoodExpr]
            simp [ite_ok_iff]
          · have hx' : (xn == "response") = false := by simpa using hx
            rw [validateASTNode, specGoodExpr]
            simp [hx']
  | .ident name, h => by
      rw [validateASTNode, specGoodExpr]
      rw [ite_ok_iff]
  | .basicLit v, h => by
      rw [validateASTNode, specGoodExpr]
      simp
  | .paren x, h => by
      rw [calleeSimple] at h
      have hx := validateASTNode_sound x h
      rw [validateASTNode, specGoodExpr]
      exact hx
  | .otherNode, h => by
      rw [validateASTNode, specGoodExpr]
      simp

/-- `validateASTNode_sound` for argument lists. -/
theorem validateArgs_sound :
    ∀ (l : GoExprList), calleeSimpleArgs l = true →
      ((validateArgs l = .ok ()) ↔ specGoodArgs l = true)
  | .nil, _ => by
      rw [validateArgs, specGoodArgs]
      simp
  | .cons e rest, h => by
      rw [calleeSimpleArgs, Bool.and_eq_true] at h
      have he := validateASTNode_sound e h.1
      have hrest := validateArgs_sound rest h.2
      rw [validateArgs, specGoodArgs]
      simp only [seqE_ok, Bool.and_eq_true, he, hrest]
end

/-- C1 amended: for every expression whose call callees are plain
identifiers or response selectors (the shapes the accepted grammar
produces), the static walk accepts iff every identifier, selector, call
target and operator lies in the allowed set; the counterexample shows
the restriction is necessary — a call with a parenthesized callee is
accepted without validating the callee. -/
theorem c1_validate_matches_allowed_sets (e : GoExpr)
    (h : calleeSimple e = true) :
    (validateASTNode e = .ok ()) ↔ specGoodExpr e = true :=
  validateASTNode_sound e h

/-- C1 counterexample: the expression `(foo)(1)` — a call whose callee is
the parenthesized disallowed identifier `foo` — passes the static walk,
because a callee that is neither a plain identifier nor a selector is
never inspected; and the service-facade expression validation
(ExpressionManager.ValidateExpression) accepts `foo(response)` with no
parse or walk at all. -/
theorem c1_counterexample :
    validateASTNode
        (.call (.paren (.ident "foo")) (.cons (.basicLit "1") .nil)) =
      .ok () ∧
    specContainsIdent "foo"
        (.call (.paren (.ident "foo")) (.cons (.basicLit "1") .nil)) = true ∧
    allowedFunctions.contains "foo" = false ∧
    isBuiltinConstant "foo" = false ∧
    ¬(("foo" : String) = "response") ∧
    emValidateExpression "foo(response)" = .ok () :=
  ⟨rfl, rfl, by decide, by decide, by decide, rfl⟩

/-- Witness for C1: the expression `response.status_code == 200` has
simple callees and is accepted by the walk. -/
theorem c1_witness :
    validateASTNode
        (.binary "==" (.selector (.ident "response") "status_code")
          (.basicLit "200")) = .ok () :=
  (c1_validate_matches_allowed_sets
      (.binary "==" (.selector (.ident "response") "status_code")
        (.basicLit "200")) rfl).mpr rfl

end RequestProbe
